import Mathlib

/-!
Verification of the LAN device-discovery subsystem of
`node-src/scripts/server.py` (the ethoscope node server).

The development is a shallow embedding of the Python source:

* Python dicts (`devices_list`, the parsed JSON bodies) are association
  lists with replace-or-append assignment (`pyDictSet`) and first-match
  lookup (`pyDictGet`).
* Python exceptions are an explicit `Except PyExc` result: the body of a
  `try:` block is a function into `Except`, and an `except: pass` handler
  is the surrounding match that maps every `.error` branch back to the
  unchanged state.
* The network is an environment `net : String -> ProbeEnv` giving, for
  each candidate address, the outcome the probe at that address observes
  (connection error, timeout, empty body, malformed body, or a parsed
  JSON object).  The nondeterministic completion order of the 256
  `Discover` threads spawned by a sweep is an explicit `order : List Nat`
  parameter: the indices of the threads in the order in which their
  single write to the shared dict lands.  The sequence of states of the
  module-level `devices_list` binding that a concurrent reader can
  observe during a sweep is `sweepGlobalTrace`.
-/

namespace Server

set_option maxRecDepth 1000000

/-- A parsed JSON object body, as returned by `json.loads` on a device's
identity response: a string-keyed record with opaque values. -/
abbrev JObj := List (String × String)

/-- The contents of the `devices_list` dict (server.py line 9): device id
mapped to the full JSON record of the device (with its `ip` key set). -/
abbrev Registry := List (String × JObj)

/-- Python dict lookup `d[k]`, returning `none` where Python would raise
`KeyError`: the value of the first entry with the given key. -/
def pyDictGet {β : Type} : List (String × β) → String → Option β
  | [], _ => none
  | p :: d, k => if p.1 = k then some p.2 else pyDictGet d k

/-- Python dict assignment `d[k] = v`: replaces the value of an existing
key in place, otherwise appends the new entry. -/
def pyDictSet {β : Type} : List (String × β) → String → β → List (String × β)
  | [], k, v => [(k, v)]
  | p :: d, k, v => if p.1 = k then (k, v) :: d else p :: pyDictSet d k v

/-- Keys of a dict, in entry order. -/
def keys {β : Type} (d : List (String × β)) : List String := d.map Prod.fst

/-- Python exceptions that the discovery code can raise. -/
inductive PyExc
  /-- `ValueError` and similar: a local programming error, e.g. a
  malformed timeout handed to `urllib2.urlopen`. -/
  | valueError
  /-- `urllib2.URLError` / `socket.timeout`: connection refused or the
  per-probe timeout was exceeded. -/
  | urlError
  /-- `ValueError` from `json.loads` on a malformed or non-object body
  (including `TypeError` from subscripting a non-dict result). -/
  | jsonError
  /-- `KeyError` from `data['id']` when the response has no `id` field. -/
  | keyError
  /-- `TypeError` from subscripting an object that is not a dict. -/
  | typeError
  /-- `NameError` from evaluating an undefined bare name. -/
  | nameError
deriving DecidableEq

/-- The outcome the probe at one address observes from the network. -/
inductive ProbeEnv
  /-- The call into `urlopen` raises a local programming error (such as a
  malformed timeout) before any network traffic. -/
  | badTimeout
  /-- Connection refused, unreachable host, or timeout exceeded:
  `urlopen` raises a network error. -/
  | netError
  /-- The request succeeds but `f.read()` returns an empty message, so
  the `if message:` guard (line 90) skips the parse and the insert. -/
  | emptyBody
  /-- The body is malformed or not a JSON object: `json.loads` (or the
  subsequent subscripting) raises. -/
  | badJson
  /-- The body parses to the JSON object `body`. -/
  | json (body : JObj)
deriving DecidableEq

/-- The body of the `try:` block in `Discover.run` (server.py lines
87-93): request `self.url + ':9000/id'`, read the message, parse it, set
`data['ip'] = self.url`, and look up `data['id']` as the registry key.
Returns the `(key, record)` pair that line 93 would insert, `none` when
the `if message:` guard fails, or the raised exception. -/
def tryBody (url : String) (env : ProbeEnv) : Except PyExc (Option (String × JObj)) :=
  match env with
  | .badTimeout => .error .valueError
  | .netError => .error .urlError
  | .emptyBody => .ok none
  | .badJson => .error .jsonError
  | .json body =>
    let data := pyDictSet body "ip" url
    match pyDictGet data "id" with
    | none => .error .keyError
    | some i => .ok (some (i, data))

/-- One `Discover.run` invocation (server.py lines 84-96) acting on the
shared `devices_list` dict: the `try:` body wrapped in the bare
`except: pass` handler, so every exception is swallowed and the dict is
left untouched; a successful parse performs the single dict assignment
`devices_list[data['id']] = data`.  The `Except` result records whether
the method as a whole propagates an exception to its caller: it never
does, so every branch is `.ok`. -/
def Discover.run (url : String) (env : ProbeEnv) (g : Registry) : Except PyExc Registry :=
  match tryBody url env with
  | .ok (some p) => .ok (pyDictSet g p.1 p.2)
  | .ok none => .ok g
  | .error _ => .ok g

/-- The `(key, record)` pair a probe contributes on success, and `none`
on any miss (network failure, empty or malformed body, missing id). -/
def probeSuccess (url : String) (env : ProbeEnv) : Option (String × JObj) :=
  match tryBody url env with
  | .ok (some p) => some p
  | _ => none

/-- A ProbeTarget: one candidate address together with the per-probe
timeout, as constructed by `Discover(0.5, ip)` on line 42. -/
structure ProbeTarget where
  url : String
  timeout : ℚ

/-- The fixed per-probe timeout passed to every `Discover` thread
(server.py line 42): 0.5 seconds. -/
def scanInterval : ℚ := 1/2

/-- Errors escalating out of the subnet computation on lines 33-35: the
uncaught exceptions raised when no route or no usable local IPv4 address
can be determined from the output of `ip r l`.  The spec names this
class `ConfigurationError`. -/
inductive ConfigurationError
  /-- No token follows the last `src` in the route listing (uncaught
  `IndexError` from `strs.split(b'src')[-1].split()[0]`). -/
  | noRoute
  /-- The extracted token has fewer than three dot-separated octets
  (uncaught `IndexError` from `host_ip[0..2]`). -/
  | badIPv4
deriving DecidableEq

/-- Python `bytes.split(b'src')` on the route listing: splits on every
occurrence of the separator `src`, keeping empty pieces. -/
def splitSrc : List Char → List (List Char)
  | 's' :: 'r' :: 'c' :: rest => [] :: splitSrc rest
  | c :: rest =>
    match splitSrc rest with
    | [] => [[c]]
    | h :: t => (c :: h) :: t
  | [] => [[]]

/-- Helper for Python's no-argument `str.split()`: accumulates the
current token (reversed) while scanning. -/
def tokensAux : List Char → List Char → List (List Char)
  | acc, [] => if acc.isEmpty then [] else [acc.reverse]
  | acc, c :: rest =>
    if c.isWhitespace then
      if acc.isEmpty then tokensAux [] rest else acc.reverse :: tokensAux [] rest
    else tokensAux (c :: acc) rest

/-- Python's no-argument `str.split()`: whitespace-run split with empty
pieces discarded. -/
def tokens (cs : List Char) : List (List Char) := tokensAux [] cs

/-- Python `str.split('.')`: splits on every dot, keeping empty pieces. -/
def splitDot : List Char → List (List Char)
  | '.' :: rest => [] :: splitDot rest
  | c :: rest =>
    match splitDot rest with
    | [] => [[c]]
    | h :: t => (c :: h) :: t
  | [] => [[]]

/-- Line 34: `host_ip = strs.split(b'src')[-1].split()[0]`, the first
whitespace-separated token after the last `src` in the `ip r l` output;
`none` where Python raises `IndexError` (no such token). -/
def hostIPv4 (routeOutput : String) : Option (List Char) :=
  (tokens ((splitSrc routeOutput.toList).getLastD [])).head?

/-- Lines 33-35 and 40-41: the subnet part used to build candidate
addresses, i.e. the first three dot-separated octets of the local IPv4
address taken from the route listing, rejoined with dots.  An
`IndexError` on the way (no token after `src`, or fewer than three
octets) escalates uncaught out of the sweep. -/
def subnetOf (routeOutput : String) : Except ConfigurationError String :=
  match hostIPv4 routeOutput with
  | none => .error .noRoute
  | some ip =>
    match splitDot ip with
    | o0 :: o1 :: o2 :: _ =>
      .ok (String.mk o0 ++ "." ++ String.mk o1 ++ "." ++ String.mk o2)
    | _ => .error .badIPv4

/-- Lines 39-44: the 256 probe targets of one sweep, one per host suffix
`0`-`255`, each `Discover(0.5, "http://" + subnet + "." + str(i))`. -/
def sweepTargets (sub : String) : List ProbeTarget :=
  (List.range 256).map (fun i => ⟨"http://" ++ sub ++ "." ++ toString i, scanInterval⟩)

/-- The spawned targets arranged in the order in which their threads'
dict writes land: `order` lists thread indices in completion order (a
permutation of `0..255` for a real sweep; out-of-range indices denote no
thread and are dropped). -/
def completionTargets (sub : String) (order : List Nat) : List ProbeTarget :=
  order.filterMap (fun i => (sweepTargets sub)[i]?)

/-- The effect of one completed `Discover` thread on the shared dict:
its `run` method never propagates an exception, and a thread whose `run`
did raise would leave the dict unchanged. -/
def step (net : String → ProbeEnv) (g : Registry) (t : ProbeTarget) : Registry :=
  ((Discover.run t.url (net t.url) g).toOption).getD g

/-- The shared dict after a list of threads has completed, in completion
order, starting from registry `g`. -/
def runAll (net : String → ProbeEnv) (ts : List ProbeTarget) (g : Registry) : Registry :=
  ts.foldl (step net) g

/-- The value finally returned by the `/devices` endpoint (line 49):
the shared dict after the join-all, or the escalating configuration
error. -/
def sweepResult (routeOutput : String) (net : String → ProbeEnv) (order : List Nat) :
    Except ConfigurationError Registry :=
  match subnetOf routeOutput with
  | .error e => .error e
  | .ok sub => .ok (runAll net (completionTargets sub order) [])

/-- Values the module-level name `devices_list` can hold. -/
inductive GlobalVal
  /-- The name is bound to a dict, as the sweep endpoint arranges. -/
  | dict (r : Registry)
  /-- The name is bound to the route handler function defined on lines
  51-53: the `def devices_list():` statement rebinds the module-level
  name from the dict bound on line 9 to the function object itself. -/
  | handler
deriving DecidableEq

/-- The module-level binding of `devices_list` after the module has
loaded, before any request: line 9 binds the name to `{}`, then the
`def devices_list():` statement on line 52 rebinds the same name to the
handler function, so the dict from line 9 is no longer reachable. -/
def initialGlobal : GlobalVal := GlobalVal.handler

/-- The `/devices_list` endpoint (lines 51-53): `return devices_list`
returns the current value of the module-level name `devices_list`. -/
def devices_list_endpoint (g : GlobalVal) : GlobalVal := g

/-- The `/devices` sweep endpoint (lines 29-49) as a transformer of the
module-level `devices_list` binding: line 32 unconditionally rebinds the
global to a fresh empty dict (discarding the previous value `_g`), lines
33-35 compute the subnet (an `IndexError` there escalates, leaving the
global cleared), lines 39-47 spawn the 256 `Discover` threads and join
them all, and line 49 returns the shared dict.  Result: the final
binding of the global, paired with the endpoint's own outcome. -/
def devices (_g : GlobalVal) (routeOutput : String) (net : String → ProbeEnv)
    (order : List Nat) : GlobalVal × Except ConfigurationError Registry :=
  match subnetOf routeOutput with
  | .error e => (GlobalVal.dict [], .error e)
  | .ok sub =>
    let reg := runAll net (completionTargets sub order) []
    (GlobalVal.dict reg, .ok reg)

/-- The successive values of the shared dict after each thread
completion, starting from registry `g` (one entry per completed
thread). -/
def probeTraceAux (net : String → ProbeEnv) : List ProbeTarget → Registry → List Registry
  | [], _ => []
  | t :: ts, g =>
    let g' := step net g t
    g' :: probeTraceAux net ts g'

/-- Every value of the module-level `devices_list` binding that a
concurrent reader can observe while a sweep is in flight: the pre-sweep
value, then the fresh empty dict bound on line 32, then the dict after
each thread completion in completion order (the last entry being the
post-sweep state).  When the subnet computation escalates, no threads
run and the trace stops at the cleared dict. -/
def sweepGlobalTrace (g0 : GlobalVal) (routeOutput : String) (net : String → ProbeEnv)
    (order : List Nat) : List GlobalVal :=
  g0 :: GlobalVal.dict [] ::
    (match subnetOf routeOutput with
     | .error _ => []
     | .ok sub => (probeTraceAux net (completionTargets sub order) []).map GlobalVal.dict)

/-- The body of the `try:` block of the `/device/<id>` endpoint (lines
58-66).  Its first statement evaluates `devices_list[id][ip]`:
subscripting the handler function raises `TypeError`; on a dict, a
missing id raises `KeyError`; and with the id present the bare name `ip`
is undefined in that scope (it is only ever a local of `devices()`), so
`NameError` is raised before any request is built (`self` on lines 60
and 64 is equally undefined).  The body therefore raises on every path,
which the return type `Except PyExc Empty` certifies. -/
def device_tryBody (g : GlobalVal) (id : String) : Except PyExc Empty :=
  match g with
  | .handler => .error .typeError
  | .dict r =>
    match pyDictGet r id with
    | none => .error .keyError
    | some _ => .error .nameError

/-- The `/device/<id>` refresh endpoint (lines 56-68) as a transformer
of the module-level `devices_list` binding: the always-raising `try:`
body under the bare `except: pass` handler, so the binding is returned
unchanged on every input. -/
def device (g : GlobalVal) (id : String) : GlobalVal :=
  match device_tryBody g id with
  | .ok e => e.elim
  | .error _ => g

/-- The `(key, record)` pairs contributed by the successful probes among
a list of targets, in completion order. -/
def successes (net : String → ProbeEnv) (ts : List ProbeTarget) : List (String × JObj) :=
  ts.filterMap (fun t => probeSuccess t.url (net t.url))

/-- Sequential last-write-wins insertion of a list of `(key, record)`
pairs into a dict. -/
def insertList (g : Registry) (l : List (String × JObj)) : Registry :=
  l.foldl (fun r p => pyDictSet r p.1 p.2) g

deriving instance DecidableEq for Except

instance : DecidableEq Empty := fun a _ => a.elim

/-! ### Concrete sweep environments used as test inputs -/

/-- A pre-sweep registry holding one previously discovered device. -/
def g0C1 : GlobalVal :=
  GlobalVal.dict [("dev-old", [("id", "dev-old"), ("ip", "http://10.0.0.9")])]

/-- A route listing whose local IPv4 address is `10.0.0.7`. -/
def ro1 : String := "default via 10.0.0.1 dev wlan0 src 10.0.0.7"

/-- A network with a single device `dev-A` at host suffix 5. -/
def net1 : String → ProbeEnv := fun u =>
  if u = "http://10.0.0.5" then ProbeEnv.json [("id", "dev-A")] else ProbeEnv.netError

/-- A route listing whose local IPv4 address is `10.0.0.7`. -/
def ro3 : String := "10.0.0.0/24 dev wlan0 proto kernel scope link src 10.0.0.7"

/-- A network whose single device reports the empty string as its id. -/
def net3 : String → ProbeEnv := fun u =>
  if u = "http://10.0.0.5" then ProbeEnv.json [("id", "")] else ProbeEnv.netError

/-- The record the empty-id device's response turns into. -/
def rec3 : JObj := [("id", ""), ("ip", "http://10.0.0.5")]

/-- A route listing whose local IPv4 address is `10.0.0.7`. -/
def ro4 : String := "default via 10.0.0.1 dev wlan0 proto dhcp src 10.0.0.7 metric 600"

/-- A network with two devices with distinct ids, at host suffixes 3 and 7. -/
def net4 : String → ProbeEnv := fun u =>
  if u = "http://10.0.0.3" then ProbeEnv.json [("id", "dev-A")]
  else if u = "http://10.0.0.7" then ProbeEnv.json [("id", "dev-B")]
  else ProbeEnv.netError

/-- A route listing whose local IPv4 address is `10.0.0.7`. -/
def ro5 : String := "default via 10.0.0.1 dev eth0 src 10.0.0.7"

/-- A network where the addresses at host suffixes 2 and 250 both report
the id `dup`, with distinguishable payloads. -/
def net5 : String → ProbeEnv := fun u =>
  if u = "http://10.0.0.2" then ProbeEnv.json [("id", "dup"), ("v", "first")]
  else if u = "http://10.0.0.250" then ProbeEnv.json [("id", "dup"), ("v", "second")]
  else ProbeEnv.netError

/-- A registry holding a record for `dev-A` at a live address. -/
def regC7 : Registry := [("dev-A", [("id", "dev-A"), ("ip", "http://10.0.0.5")])]

/-! ### Dict lemmas -/

theorem keys_nil {β : Type} : keys ([] : List (String × β)) = [] := rfl

theorem keys_cons {β : Type} (p : String × β) (d : List (String × β)) :
    keys (p :: d) = p.1 :: keys d := rfl

theorem pyDictGet_pyDictSet_self {β : Type} (d : List (String × β)) (k : String) (v : β) :
    pyDictGet (pyDictSet d k v) k = some v := by
  induction d with
  | nil => simp [pyDictSet, pyDictGet]
  | cons p d ih =>
    by_cases h : p.1 = k
    · simp only [pyDictSet]
      rw [if_pos h]
      simp [pyDictGet]
    · simp only [pyDictSet]
      rw [if_neg h]
      simp only [pyDictGet]
      rw [if_neg h]
      exact ih

theorem pyDictGet_pyDictSet_ne {β : Type} (d : List (String × β)) (k k' : String) (v : β)
    (h : k' ≠ k) : pyDictGet (pyDictSet d k v) k' = pyDictGet d k' := by
  have hkk : ¬ k = k' := fun hh => h hh.symm
  induction d with
  | nil =>
    simp only [pyDictSet, pyDictGet]
    rw [if_neg hkk]
  | cons p d ih =>
    by_cases hp : p.1 = k
    · simp only [pyDictSet]
      rw [if_pos hp]
      have hp' : ¬ p.1 = k' := by rw [hp]; exact hkk
      simp only [pyDictGet]
      rw [if_neg hkk, if_neg hp']
    · simp only [pyDictSet]
      rw [if_neg hp]
      simp only [pyDictGet]
      by_cases hp' : p.1 = k'
      · rw [if_pos hp', if_pos hp']
      · rw [if_neg hp', if_neg hp']
        exact ih

theorem mem_pyDictSet {β : Type} (d : List (String × β)) (k : String) (v : β)
    (p : String × β) (h : p ∈ pyDictSet d k v) : p ∈ d ∨ p = (k, v) := by
  induction d with
  | nil =>
    right
    simpa [pyDictSet] using h
  | cons q d ih =>
    simp only [pyDictSet] at h
    by_cases hq : q.1 = k
    · rw [if_pos hq] at h
      rcases List.mem_cons.mp h with h | h
      · right; exact h
      · left; exact List.mem_cons_of_mem _ h
    · rw [if_neg hq] at h
      rcases List.mem_cons.mp h with h | h
      · left
        rw [h]
        exact List.mem_cons_self _ _
      · rcases ih h with h | h
        · left; exact List.mem_cons_of_mem _ h
        · right; exact h

theorem mem_keys_pyDictSet {β : Type} (d : List (String × β)) (k : String) (v : β)
    (a : String) : a ∈ keys (pyDictSet d k v) ↔ a ∈ keys d ∨ a = k := by
  induction d with
  | nil => simp [pyDictSet, keys]
  | cons q d ih =>
    simp only [pyDictSet]
    by_cases hq : q.1 = k
    · rw [if_pos hq]
      simp only [keys_cons, List.mem_cons]
      rw [hq]
      tauto
    · rw [if_neg hq]
      simp only [keys_cons, List.mem_cons] at ih ⊢
      rw [ih]
      tauto

theorem nodup_keys_pyDictSet {β : Type} (d : List (String × β)) (k : String) (v : β)
    (h : (keys d).Nodup) : (keys (pyDictSet d k v)).Nodup := by
  induction d with
  | nil => simp [pyDictSet, keys]
  | cons q d ih =>
    simp only [keys_cons, List.nodup_cons] at h
    simp only [pyDictSet]
    by_cases hq : q.1 = k
    · rw [if_pos hq]
      simp only [keys_cons, List.nodup_cons]
      exact ⟨hq ▸ h.1, h.2⟩
    · rw [if_neg hq]
      simp only [keys_cons, List.nodup_cons]
      refine ⟨fun hmem => ?_, ih h.2⟩
      rcases (mem_keys_pyDictSet d k v q.1).mp hmem with hh | hh
      · exact h.1 hh
      · exact hq hh

theorem length_pyDictSet {β : Type} (d : List (String × β)) (k : String) (v : β) :
    (pyDictSet d k v).length = if k ∈ keys d then d.length else d.length + 1 := by
  induction d with
  | nil => simp [pyDictSet, keys]
  | cons q d ih =>
    simp only [pyDictSet]
    by_cases hq : q.1 = k
    · rw [if_pos hq]
      have hmem : k ∈ keys (q :: d) := by
        rw [keys_cons, hq]
        exact List.mem_cons_self _ _
      rw [if_pos hmem]
      simp
    · rw [if_neg hq]
      have hne : ¬ k = q.1 := fun hh => hq hh.symm
      simp only [List.length_cons, ih, keys_cons, List.mem_cons, hne, false_or]
      by_cases hkd : k ∈ keys d
      · simp [hkd]
      · simp [hkd]

theorem countP_eq_zero_of_not_mem_keys {β : Type} (d : List (String × β)) (k : String)
    (h : k ∉ keys d) : d.countP (fun p => decide (p.1 = k)) = 0 := by
  induction d with
  | nil => simp
  | cons q d ih =>
    simp only [keys_cons, List.mem_cons] at h
    push_neg at h
    rw [List.countP_cons]
    have h1 : ¬ q.1 = k := fun hh => h.1 hh.symm
    simp [h1, ih h.2]

theorem countP_keys_nodup {β : Type} (d : List (String × β)) (k : String)
    (h : (keys d).Nodup) :
    d.countP (fun p => decide (p.1 = k)) = if k ∈ keys d then 1 else 0 := by
  induction d with
  | nil => simp [keys]
  | cons q d ih =>
    simp only [keys_cons, List.nodup_cons] at h
    rw [List.countP_cons]
    by_cases hq : q.1 = k
    · have hk : k ∉ keys d := hq ▸ h.1
      rw [countP_eq_zero_of_not_mem_keys d k hk]
      have hmem : k ∈ keys (q :: d) := by
        rw [keys_cons, hq]
        exact List.mem_cons_self _ _
      rw [if_pos hmem]
      simp [hq]
    · have hne : ¬ k = q.1 := fun hh => hq hh.symm
      rw [ih h.2]
      simp only [keys_cons, List.mem_cons, hne, false_or]
      simp [hq]

/-! ### Merge lemmas: the thread fold as last-write-wins insertion -/

theorem insertList_nil (g : Registry) : insertList g [] = g := rfl

theorem insertList_cons (g : Registry) (p : String × JObj) (l : List (String × JObj)) :
    insertList g (p :: l) = insertList (pyDictSet g p.1 p.2) l := rfl

theorem insertList_concat (g : Registry) (l : List (String × JObj)) (p : String × JObj) :
    insertList g (l ++ [p]) = pyDictSet (insertList g l) p.1 p.2 := by
  simp [insertList, List.foldl_append]

theorem step_eq (net : String → ProbeEnv) (g : Registry) (t : ProbeTarget) :
    step net g t =
      match probeSuccess t.url (net t.url) with
      | some p => pyDictSet g p.1 p.2
      | none => g := by
  unfold step Discover.run probeSuccess
  rcases tryBody t.url (net t.url) with e | o
  · rfl
  · rcases o with _ | p
    · rfl
    · rfl

theorem successes_nil (net : String → ProbeEnv) : successes net [] = [] := rfl

theorem successes_cons (net : String → ProbeEnv) (t : ProbeTarget) (ts : List ProbeTarget) :
    successes net (t :: ts) =
      match probeSuccess t.url (net t.url) with
      | some p => p :: successes net ts
      | none => successes net ts := by
  unfold successes
  rw [List.filterMap_cons]
  rcases probeSuccess t.url (net t.url) with _ | p
  · rfl
  · rfl

theorem runAll_eq_insertList (net : String → ProbeEnv) (ts : List ProbeTarget)
    (g : Registry) : runAll net ts g = insertList g (successes net ts) := by
  induction ts generalizing g with
  | nil => rfl
  | cons t ts ih =>
    have hstep : List.foldl (step net) g (t :: ts) = List.foldl (step net) (step net g t) ts :=
      rfl
    unfold runAll at ih ⊢
    rw [hstep, successes_cons, step_eq]
    rcases probeSuccess t.url (net t.url) with _ | p
    · exact ih g
    · rw [insertList_cons]
      exact ih _

theorem pyDictGet_insertList (g : Registry) (l : List (String × JObj)) (k : String) :
    pyDictGet (insertList g l) k =
      match (l.filter (fun p => decide (p.1 = k))).getLast? with
      | some p => some p.2
      | none => pyDictGet g k := by
  induction l using List.reverseRecOn with
  | nil => rfl
  | append_singleton l p ih =>
    rw [insertList_concat, List.filter_append]
    by_cases hp : p.1 = k
    · have hfil : List.filter (fun p => decide (p.1 = k)) [p] = [p] := by simp [hp]
      rw [hfil, List.getLast?_concat]
      rw [hp]
      exact pyDictGet_pyDictSet_self _ _ _
    · have hfil : List.filter (fun p => decide (p.1 = k)) [p] = [] := by simp [hp]
      rw [hfil, List.append_nil]
      rw [pyDictGet_pyDictSet_ne _ _ _ _ (fun hh => hp hh.symm)]
      exact ih

theorem nodup_keys_insertList (g : Registry) (l : List (String × JObj))
    (h : (keys g).Nodup) : (keys (insertList g l)).Nodup := by
  induction l generalizing g with
  | nil => exact h
  | cons p l ih =>
    rw [insertList_cons]
    exact ih _ (nodup_keys_pyDictSet _ _ _ h)

theorem mem_insertList (g : Registry) (l : List (String × JObj)) (p : String × JObj)
    (h : p ∈ insertList g l) : p ∈ g ∨ p ∈ l := by
  induction l generalizing g with
  | nil => left; exact h
  | cons q l ih =>
    rw [insertList_cons] at h
    rcases ih _ h with h | h
    · rcases mem_pyDictSet _ _ _ _ h with h | h
      · left; exact h
      · right
        rw [h]
        exact List.mem_cons_self _ _
    · right; exact List.mem_cons_of_mem _ h

theorem mem_keys_insertList (g : Registry) (l : List (String × JObj)) (a : String) :
    a ∈ keys (insertList g l) ↔ a ∈ keys g ∨ a ∈ keys l := by
  induction l generalizing g with
  | nil => simp [insertList_nil, keys_nil]
  | cons p l ih =>
    rw [insertList_cons, ih, mem_keys_pyDictSet, keys_cons, List.mem_cons]
    tauto

theorem length_insertList (g : Registry) (l : List (String × JObj))
    (hg : (keys g).Nodup) (hl : (keys l).Nodup)
    (hd : ∀ a ∈ keys l, a ∉ keys g) :
    (insertList g l).length = g.length + l.length := by
  induction l generalizing g with
  | nil => simp [insertList_nil]
  | cons p l ih =>
    simp only [keys_cons, List.nodup_cons] at hl
    rw [insertList_cons]
    have hfresh : p.1 ∉ keys g := hd p.1 (by rw [keys_cons]; exact List.mem_cons_self _ _)
    have hlen : (pyDictSet g p.1 p.2).length = g.length + 1 := by
      rw [length_pyDictSet, if_neg hfresh]
    have hrec := ih (pyDictSet g p.1 p.2) (nodup_keys_pyDictSet _ _ _ hg) hl.2
      (fun a ha hmem => by
        rcases (mem_keys_pyDictSet g p.1 p.2 a).mp hmem with hh | hh
        · exact hd a (by rw [keys_cons]; exact List.mem_cons_of_mem _ ha) hh
        · exact hl.1 (hh ▸ ha))
    rw [hrec, hlen, List.length_cons]
    omega

theorem length_successes (net : String → ProbeEnv) (ts : List ProbeTarget) :
    (successes net ts).length =
      ts.countP (fun t => (probeSuccess t.url (net t.url)).isSome) := by
  induction ts with
  | nil => rfl
  | cons t ts ih =>
    rw [successes_cons, List.countP_cons]
    rcases hp : probeSuccess t.url (net t.url) with _ | p
    · simp [hp, ih]
    · simp [hp, ih]

/-! ### Completion order and trace lemmas -/

theorem filterMap_getElem_range {α : Type} (l : List α) :
    (List.range l.length).filterMap (fun i => l[i]?) = l := by
  induction l with
  | nil => rfl
  | cons x xs ih =>
    rw [List.length_cons, List.range_succ_eq_map, List.filterMap_cons, List.filterMap_map]
    have hx : (x :: xs)[0]? = some x := by simp
    rw [hx]
    have hcomp : ((fun i => (x :: xs)[i]?) ∘ Nat.succ) = fun i => xs[i]? := by
      funext i
      simp
    rw [hcomp, ih]

theorem length_sweepTargets (sub : String) : (sweepTargets sub).length = 256 := by
  simp [sweepTargets]

theorem completionTargets_perm (sub : String) (order : List Nat)
    (h : order.Perm (List.range 256)) :
    (completionTargets sub order).Perm (sweepTargets sub) := by
  have h256 : List.range 256 = List.range (sweepTargets sub).length := by
    rw [length_sweepTargets]
  rw [h256] at h
  have hperm := h.filterMap (fun i => (sweepTargets sub)[i]?)
  rw [filterMap_getElem_range] at hperm
  exact hperm

theorem probeSuccess_fields (url : String) (env : ProbeEnv) (p : String × JObj)
    (h : probeSuccess url env = some p) :
    pyDictGet p.2 "id" = some p.1 ∧ pyDictGet p.2 "ip" = some url := by
  rcases env with _ | _ | _ | _ | body
  · exact absurd h (by simp [probeSuccess, tryBody])
  · exact absurd h (by simp [probeSuccess, tryBody])
  · exact absurd h (by simp [probeSuccess, tryBody])
  · exact absurd h (by simp [probeSuccess, tryBody])
  · simp only [probeSuccess, tryBody] at h
    rcases hid : pyDictGet (pyDictSet body "ip" url) "id" with _ | i
    · rw [hid] at h
      exact absurd h (by simp)
    · rw [hid] at h
      simp only [Except.ok.injEq, Option.some.injEq] at h
      rw [← h]
      exact ⟨hid, pyDictGet_pyDictSet_self _ _ _⟩

theorem mem_probeTraceAux (net : String → ProbeEnv) (ts : List ProbeTarget) (g : Registry)
    (s : Registry) (h : s ∈ probeTraceAux net ts g) :
    ∃ n, s = runAll net (ts.take n) g := by
  induction ts generalizing g with
  | nil => exact absurd h (by simp [probeTraceAux])
  | cons t ts ih =>
    simp only [probeTraceAux] at h
    rcases List.mem_cons.mp h with h | h
    · refine ⟨1, ?_⟩
      rw [h]
      rfl
    · rcases ih (step net g t) h with ⟨n, hn⟩
      refine ⟨n + 1, ?_⟩
      rw [hn]
      rfl

/-! ### Claim theorems -/

/-- C10: running the sweep endpoint a second time against an unchanged
environment (same route listing, same per-address responses, same thread
completion order) yields exactly the same final global binding and the
same returned registry as the first run, because the sweep rebinds the
global to a fresh dict before doing anything else and its result depends
only on the environment. -/
theorem C10_sweep_idempotent (g0 : GlobalVal) (routeOutput : String)
    (net : String → ProbeEnv) (order : List Nat) :
    devices (devices g0 routeOutput net order).1 routeOutput net order =
      devices g0 routeOutput net order := rfl

/-- C8: when no route or local IPv4 address can be determined from the
route listing, the sweep fails with exactly the configuration error the
subnet computation raises, surfaced to the caller; and whenever the
subnet computation succeeds the sweep returns a registry, so no probe
failure ever escalates — the configuration error is the only error class
that escapes a sweep. -/
theorem C8_configuration_error (routeOutput : String) (net : String → ProbeEnv)
    (order : List Nat) :
    (∀ e, subnetOf routeOutput = Except.error e →
      sweepResult routeOutput net order = Except.error e) ∧
    (∀ sub, subnetOf routeOutput = Except.ok sub →
      ∃ reg, sweepResult routeOutput net order = Except.ok reg) := by
  constructor
  · intro e he
    simp [sweepResult, he]
  · intro sub hs
    exact ⟨runAll net (completionTargets sub order) [], by simp [sweepResult, hs]⟩

/-- Witness for C8 at the empty route listing: no token follows `src`,
so the sweep surfaces the no-route configuration error. -/
theorem C8_witness :
    subnetOf "" = Except.error ConfigurationError.noRoute ∧
    sweepResult "" (fun _ => ProbeEnv.netError) [] =
      Except.error ConfigurationError.noRoute :=
  ⟨by decide,
   (C8_configuration_error "" (fun _ => ProbeEnv.netError) []).1
     ConfigurationError.noRoute (by decide)⟩

/-- C6 (code bug): before the first sweep has ever run, listing the
known devices does not return an empty id-to-record mapping.  Line 9
binds `devices_list` to `{}`, but the `def devices_list():` statement on
line 52 rebinds the same module-level name to the route handler
function, so the `/devices_list` endpoint returns the handler function
object itself instead of the (intended) empty dict. -/
theorem C6_stale_listing :
    devices_list_endpoint initialGlobal = GlobalVal.handler ∧
    GlobalVal.handler ≠ GlobalVal.dict [] :=
  ⟨rfl, by decide⟩

/-- C7 (code bug): the per-device refresh endpoint never re-probes and
never updates the registry.  Even with the id present in the registry
and a live device at its address, the first line of the `try:` block
evaluates the undefined bare name `ip` (line 59), so the body raises on
every path (`NameError` here, certified by the `Except PyExc Empty`
return type of `device_tryBody`) and the bare `except: pass` swallows
it: the endpoint is an unconditional no-op on every input. -/
theorem C7_refresh_broken :
    device_tryBody (GlobalVal.dict regC7) "dev-A" = Except.error PyExc.nameError ∧
    device (GlobalVal.dict regC7) "dev-A" = GlobalVal.dict regC7 ∧
    ∀ g id, device g id = g := by
  refine ⟨by decide, by decide, fun g id => ?_⟩
  rcases h : device_tryBody g id with e | e
  · simp [device, h]
  · exact e.elim

/-- C2 counterexample: a probe that hits a local programming error (a
malformed timeout raising inside `urlopen`) does not raise: the bare
`except: pass` in `Discover.run` swallows the exception and the method
returns normally with the registry untouched, contradicting the claim
that such a probe raises an error. -/
theorem C2_counterexample :
    Discover.run "http://10.0.0.5" ProbeEnv.badTimeout [] = Except.ok [] ∧
    ∀ e, Discover.run "http://10.0.0.5" ProbeEnv.badTimeout [] ≠ Except.error e := by
  refine ⟨rfl, fun e h => ?_⟩
  simp [Discover.run, tryBody] at h

/-- C2 (amended): a probe never raises under any outcome — connection
refused, timeout exceeded, malformed or non-JSON body, missing `id`,
and even a local programming error such as a malformed timeout are all
swallowed by the bare `except: pass`; every non-success leaves the
registry unchanged (silently excluded), and a success performs exactly
the one keyed insertion. -/
theorem C2_probe_never_raises (url : String) (env : ProbeEnv) (g : Registry) :
    (∃ g', Discover.run url env g = Except.ok g') ∧
    (probeSuccess url env = none → Discover.run url env g = Except.ok g) ∧
    (∀ p, probeSuccess url env = some p →
      Discover.run url env g = Except.ok (pyDictSet g p.1 p.2)) := by
  unfold Discover.run probeSuccess
  rcases tryBody url env with e | o
  · exact ⟨⟨g, rfl⟩, fun _ => rfl, fun p hp => by simp at hp⟩
  · rcases o with _ | p
    · exact ⟨⟨g, rfl⟩, fun _ => rfl, fun p hp => by simp at hp⟩
    · refine ⟨⟨pyDictSet g p.1 p.2, rfl⟩, fun hp => by simp at hp, fun q hq => ?_⟩
      simp only [Option.some.injEq] at hq
      rw [hq]

/-- Witness for C2 at a refused connection: the probe reports no
success and the registry is returned unchanged without an exception. -/
theorem C2_witness :
    probeSuccess "http://10.0.0.9" ProbeEnv.netError = none ∧
    Discover.run "http://10.0.0.9" ProbeEnv.netError [] = Except.ok [] :=
  ⟨rfl, (C2_probe_never_raises "http://10.0.0.9" ProbeEnv.netError []).2.1 rfl⟩

/-- C9: a successful sweep builds exactly 256 probe targets, one per
host suffix 0-255, whose address is `http://` plus the first three
octets of the local IPv4 address from the route listing joined with the
suffix, each carrying the fixed per-probe timeout 0.5; and any full
completion order visits exactly this multiset of targets. -/
theorem C9_sweep_targets (routeOutput : String) (sub : String)
    (h : subnetOf routeOutput = Except.ok sub) :
    (sweepTargets sub).length = 256 ∧
    (∀ i, i < 256 → (sweepTargets sub)[i]? =
      some ⟨"http://" ++ sub ++ "." ++ toString i, scanInterval⟩) ∧
    scanInterval = 1/2 ∧
    (∃ ip o0 o1 o2 rest, hostIPv4 routeOutput = some ip ∧
      splitDot ip = o0 :: o1 :: o2 :: rest ∧
      sub = String.mk o0 ++ "." ++ String.mk o1 ++ "." ++ String.mk o2) ∧
    (∀ order, order.Perm (List.range 256) →
      (completionTargets sub order).Perm (sweepTargets sub)) := by
  refine ⟨length_sweepTargets sub, ?_, rfl, ?_, fun order ho => completionTargets_perm sub order ho⟩
  · intro i hi
    simp only [sweepTargets]
    rw [List.getElem?_map, List.getElem?_range hi]
    rfl
  · simp only [subnetOf] at h
    split at h
    · simp at h
    · rename_i ip hip
      split at h
      · rename_i o0 o1 o2 tail heq
        simp only [Except.ok.injEq] at h
        exact ⟨ip, o0, o1, o2, tail, hip, heq, h.symm⟩
      · simp at h

/-- Witness for C9 at a concrete route listing with local address
`10.0.0.7`: the subnet is `10.0.0` and the target list has length
256. -/
theorem C9_witness :
    subnetOf ro1 = Except.ok "10.0.0" ∧ (sweepTargets "10.0.0").length = 256 ∧
    (sweepTargets "10.0.0")[5]? = some ⟨"http://10.0.0.5", scanInterval⟩ :=
  ⟨by decide,
   (C9_sweep_targets ro1 "10.0.0" (by decide)).1,
   by
     have h5 := ((C9_sweep_targets ro1 "10.0.0" (by decide)).2.1) 5 (by omega)
     rw [h5]
     rfl⟩

/-- C4: a sweep whose subnet computation succeeds returns (without
error) a registry with exactly one entry per successful probe, provided
the successful probes report distinct ids; and a sweep with zero
successful probes returns the empty registry rather than an error. -/
theorem C4_sweep_counts (routeOutput : String) (net : String → ProbeEnv)
    (order : List Nat) (sub : String)
    (h1 : subnetOf routeOutput = Except.ok sub)
    (h2 : order.Perm (List.range 256))
    (h3 : (keys (successes net (completionTargets sub order))).Nodup) :
    ∃ reg, sweepResult routeOutput net order = Except.ok reg ∧
      reg.length = (sweepTargets sub).countP
        (fun t => (probeSuccess t.url (net t.url)).isSome) ∧
      ((∀ t ∈ sweepTargets sub, probeSuccess t.url (net t.url) = none) → reg = []) := by
  have hperm := completionTargets_perm sub order h2
  refine ⟨runAll net (completionTargets sub order) [],
    by simp [sweepResult, h1], ?_, ?_⟩
  · rw [runAll_eq_insertList]
    have hlen := length_insertList [] (successes net (completionTargets sub order))
      (by simp [keys_nil]) h3 (by simp [keys_nil])
    rw [hlen, length_successes]
    simp only [List.length_nil, Nat.zero_add]
    exact hperm.countP_eq _
  · intro hall
    rw [runAll_eq_insertList]
    have hnil : successes net (completionTargets sub order) = [] := by
      apply List.filterMap_eq_nil_iff.mpr
      intro t ht
      exact hall t (hperm.mem_iff.mp ht)
    rw [hnil]
    rfl

/-- Witness for C4: a sweep over the 256 candidate addresses of subnet
`10.0.0` in which exactly the probes at suffixes 3 and 7 succeed, with
distinct ids, yields a registry of exactly as many entries as there are
successful probes. -/
theorem C4_witness :
    subnetOf ro4 = Except.ok "10.0.0" ∧
    (keys (successes net4 (completionTargets "10.0.0" (List.range 256)))).Nodup ∧
    (∃ reg, sweepResult ro4 net4 (List.range 256) = Except.ok reg ∧
      reg.length = (sweepTargets "10.0.0").countP
        (fun t => (probeSuccess t.url (net4 t.url)).isSome) ∧
      ((∀ t ∈ sweepTargets "10.0.0", probeSuccess t.url (net4 t.url) = none) → reg = [])) :=
  ⟨by decide, by decide,
   C4_sweep_counts ro4 net4 (List.range 256) "10.0.0" (by decide)
     (List.Perm.refl _) (by decide)⟩

/-- C5: for every id and every completion order, a successful sweep's
registry holds at most one entry for that id — exactly one when some
successful probe reported it — and its value is the record of the
successful probe with that id whose completion was recorded last
(last-write-wins by completion order). -/
theorem C5_last_write_wins (routeOutput : String) (net : String → ProbeEnv)
    (order : List Nat) (sub : String) (k : String)
    (h1 : subnetOf routeOutput = Except.ok sub) :
    ∃ reg, sweepResult routeOutput net order = Except.ok reg ∧
      reg.countP (fun p => decide (p.1 = k)) =
        (if k ∈ keys (successes net (completionTargets sub order)) then 1 else 0) ∧
      pyDictGet reg k =
        (((successes net (completionTargets sub order)).filter
          (fun p => decide (p.1 = k))).getLast?).map Prod.snd := by
  refine ⟨runAll net (completionTargets sub order) [],
    by simp [sweepResult, h1], ?_, ?_⟩
  · rw [runAll_eq_insertList]
    rw [countP_keys_nodup _ _ (nodup_keys_insertList [] _ (by simp [keys_nil]))]
    have hiff := mem_keys_insertList [] (successes net (completionTargets sub order)) k
    by_cases hk : k ∈ keys (successes net (completionTargets sub order))
    · rw [if_pos (hiff.mpr (Or.inr hk)), if_pos hk]
    · rw [if_neg (fun hmem => ?_), if_neg hk]
      rcases hiff.mp hmem with hh | hh
      · simp [keys_nil] at hh
      · exact hk hh
  · rw [runAll_eq_insertList, pyDictGet_insertList]
    rcases hl : (((successes net (completionTargets sub order)).filter
        (fun p => decide (p.1 = k))).getLast?) with _ | p
    · rw [hl]
      rfl
    · rw [hl]
      rfl

/-- Witness for C5: the devices at suffixes 2 and 250 both report id
`dup`; with the ascending completion order the suffix-250 response is
recorded last, and it is the one record the registry holds for `dup`. -/
theorem C5_witness :
    subnetOf ro5 = Except.ok "10.0.0" ∧
    (((successes net5 (completionTargets "10.0.0" (List.range 256))).filter
      (fun p => decide (p.1 = "dup"))).getLast?) =
      some ("dup", [("id", "dup"), ("v", "second"), ("ip", "http://10.0.0.250")]) ∧
    (∃ reg, sweepResult ro5 net5 (List.range 256) = Except.ok reg ∧
      reg.countP (fun p => decide (p.1 = "dup")) =
        (if "dup" ∈ keys (successes net5 (completionTargets "10.0.0" (List.range 256)))
          then 1 else 0) ∧
      pyDictGet reg "dup" =
        (((successes net5 (completionTargets "10.0.0" (List.range 256))).filter
          (fun p => decide (p.1 = "dup"))).getLast?).map Prod.snd) :=
  ⟨by decide, by decide,
   C5_last_write_wins ro5 net5 (List.range 256) "10.0.0" "dup" (by decide)⟩

/-- C3 counterexample: the claim requires every record's `id` field to
be non-empty, but the code performs no such check — a device answering
with an empty-string id is inserted under the key `""`, and the one
record of the resulting registry has `""` as its id field. -/
theorem C3_counterexample :
    sweepResult ro3 net3 (List.range 256) = Except.ok [("", rec3)] ∧
    pyDictGet rec3 "id" = some "" := by
  exact ⟨by decide, by decide⟩

/-- C3 (amended): every record of a successful sweep's registry has an
`id` field equal to the key it is stored under (possibly the empty
string — the code never checks non-emptiness) and an `ip` field equal to
the address of the probe that produced it, and it stems from a
successful probe — so a response with no parseable `id` is never
inserted. -/
theorem C3_record_fields (routeOutput : String) (net : String → ProbeEnv)
    (order : List Nat) (sub : String) (reg : Registry)
    (h1 : subnetOf routeOutput = Except.ok sub)
    (h2 : sweepResult routeOutput net order = Except.ok reg) :
    ∀ p ∈ reg, pyDictGet p.2 "id" = some p.1 ∧
      ∃ t, t ∈ completionTargets sub order ∧
        probeSuccess t.url (net t.url) = some p ∧
        pyDictGet p.2 "ip" = some t.url := by
  intro p hp
  have hreg : insertList [] (successes net (completionTargets sub order)) = reg := by
    simp only [sweepResult, h1, Except.ok.injEq] at h2
    rw [← h2, runAll_eq_insertList]
  rw [← hreg] at hp
  rcases mem_insertList _ _ _ hp with hh | hh
  · exact absurd hh (List.not_mem_nil p)
  · rcases List.mem_filterMap.mp hh with ⟨t, ht, hpt⟩
    rcases probeSuccess_fields t.url (net t.url) p hpt with ⟨hid, hip⟩
    exact ⟨hid, t, ht, hpt, hip⟩

/-- Witness for C3 applied to the empty-id sweep: the inserted record's
`id` equals its key and its `ip` is the probed address. -/
theorem C3_witness :
    pyDictGet rec3 "id" = some ("", rec3).1 ∧
    ∃ t, t ∈ completionTargets "10.0.0" (List.range 256) ∧
      probeSuccess t.url (net3 t.url) = some ("", rec3) ∧
      pyDictGet rec3 "ip" = some t.url :=
  C3_record_fields ro3 net3 (List.range 256) "10.0.0" [("", rec3)]
    (by decide) (by decide) ("", rec3) (by decide)

/-- C1 counterexample: mid-sweep the shared dict is observable in a
state that is neither the pre-sweep registry nor the post-sweep
registry.  Starting from a registry holding `dev-old`, a sweep that
discovers `dev-A` first rebinds the global to the empty dict (line 32),
and that cleared state differs from both the pre-sweep and the
post-sweep value: the replacement is not a single atomic swap at sweep
completion. -/
theorem C1_counterexample :
    ¬ (∀ s ∈ sweepGlobalTrace g0C1 ro1 net1 (List.range 256),
        s = g0C1 ∨ s = (devices g0C1 ro1 net1 (List.range 256)).1) := by
  intro h
  have hmem : GlobalVal.dict [] ∈ sweepGlobalTrace g0C1 ro1 net1 (List.range 256) :=
    List.mem_cons_of_mem _ (List.mem_cons_self _ _)
  rcases h _ hmem with hh | hh
  · exact absurd hh (by decide)
  · exact absurd hh (by decide)

/-- C1 (amended): the registry global is rebound to a fresh empty dict
at the start of the sweep and populated incrementally as probes
complete; every state a reader can observe during an in-flight sweep is
either the pre-sweep value or the merge of the successes of some
completion-order prefix of the probes into the empty dict (the full
prefix being the post-sweep state). -/
theorem C1_incremental_states (g0 : GlobalVal) (routeOutput : String)
    (net : String → ProbeEnv) (order : List Nat) (sub : String)
    (h1 : subnetOf routeOutput = Except.ok sub) :
    ∀ s ∈ sweepGlobalTrace g0 routeOutput net order,
      s = g0 ∨ ∃ n, s = GlobalVal.dict
        (runAll net ((completionTargets sub order).take n) []) := by
  intro s hs
  simp only [sweepGlobalTrace, h1] at hs
  rcases List.mem_cons.mp hs with h | hs
  · left; exact h
  · rcases List.mem_cons.mp hs with h | hs
    · right
      exact ⟨0, by rw [h]; rfl⟩
    · rcases List.mem_map.mp hs with ⟨r, hr, hrs⟩
      rcases mem_probeTraceAux net _ _ _ hr with ⟨n, hn⟩
      right
      exact ⟨n, by rw [← hrs, hn]⟩

/-- Witness for C1 at a sweep with no completions yet recorded: the
cleared dict observed mid-sweep is a prefix state (the empty prefix). -/
theorem C1_witness :
    subnetOf "x src 1.2.3.4" = Except.ok "1.2.3" ∧
    (GlobalVal.dict [] = GlobalVal.handler ∨
      ∃ n, GlobalVal.dict [] = GlobalVal.dict
        (runAll (fun _ => ProbeEnv.netError)
          ((completionTargets "1.2.3" []).take n) [])) :=
  ⟨by decide,
   C1_incremental_states GlobalVal.handler "x src 1.2.3.4"
     (fun _ => ProbeEnv.netError) [] "1.2.3" (by decide)
     (GlobalVal.dict []) (by decide)⟩

end Server
